import Mathlib

/-!
Verification of the sprite-sheet GIF creator core.

Shallow embedding of the grid-addressing, chroma-key, export-loop,
grid-overlay, preview-player and configuration-update logic of the
repository (src/utils/gifBuilder.ts, src/App.tsx, and the preview /
sprite-canvas components), with theorems settling the specification
claims about them.
-/

namespace GifCreator

/-- Traversal direction of the sprite sheet, from the union type
`direction: 'row' | 'column'` in src/types.ts. -/
inductive Direction where
  | row
  | column
deriving DecidableEq

/-- Map a sequence index to a (row, col) grid cell, as computed by the
export loop in src/utils/gifBuilder.ts (lines 109-118): for `'column'`,
`row = i % rows; col = floor(i / rows)`; otherwise
`col = i % cols; row = floor(i / cols)`.  The live preview
(PreviewPlayer, lines 39-50) performs the identical computation. -/
def toCell (dir : Direction) (rows cols i : Nat) : Nat × Nat :=
  match dir with
  | .column => (i % rows, i / rows)
  | .row => (i / cols, i % cols)

/-- Map a visual (row, col) cell to its sequence index, as computed by
the grid overlay in the sprite canvas component (renderGridOverlay,
lines 179-188): for `'column'`, `sequenceIndex = visualCol * rows +
visualRow`; otherwise `sequenceIndex = visualRow * cols + visualCol`. -/
def toIndex (dir : Direction) (rows cols visualRow visualCol : Nat) : Nat :=
  match dir with
  | .column => visualCol * rows + visualRow
  | .row => visualRow * cols + visualCol

end GifCreator

namespace GifCreator

/-- C1: For every grid with rows ≥ 1 and cols ≥ 1 and every sequence index
i with i < rows·cols, mapping i to a (row, col) cell with the exporter's
index-to-cell computation and mapping that cell back to an index with the
grid overlay's cell-to-index computation returns i again, for both the
RowMajor and ColumnMajor traversal directions. -/
theorem toIndex_toCell_roundTrip (dir : Direction) (rows cols i : Nat)
    (hr : 1 ≤ rows) (hc : 1 ≤ cols) (hi : i < rows * cols) :
    toIndex dir rows cols (toCell dir rows cols i).1 (toCell dir rows cols i).2 = i := by
  cases dir with
  | column =>
    show i / rows * rows + i % rows = i
    rw [Nat.mul_comm, Nat.div_add_mod]
  | row =>
    show i / cols * cols + i % cols = i
    rw [Nat.mul_comm, Nat.div_add_mod]

/-- Witness for the round-trip theorem at rows = 2, cols = 3, i = 4,
RowMajor. -/
theorem toIndex_toCell_roundTrip_witness :
    toIndex Direction.row 2 3 (toCell Direction.row 2 3 4).1 (toCell Direction.row 2 3 4).2 = 4 :=
  toIndex_toCell_roundTrip Direction.row 2 3 4 (by decide) (by decide) (by decide)

/-- One RGBA pixel of an ImageData buffer (four consecutive entries of
`frameData.data` in applyChromaKey, src/utils/gifBuilder.ts lines 41-45);
each channel is a byte value. -/
structure Pixel where
  r : Nat
  g : Nat
  b : Nat
  a : Nat
deriving DecidableEq

/-- The reserved key color: magenta at full opacity, from
`KEY_COLOR_RGB = [255, 0, 255]` and the `data[i + 3] = 255` write in
src/utils/gifBuilder.ts lines 22 and 55-58. -/
def keyColor : Pixel := ⟨255, 0, 255, 255⟩

/-- The background test of applyChromaKey (src/utils/gifBuilder.ts lines
48-53): each RGB channel of the pixel is within the per-channel tolerance
20 of the background reference, or the alpha channel is below 10. -/
def isBackground (bg p : Pixel) : Bool :=
  (((p.r : Int) - (bg.r : Int)).natAbs < 20 &&
   ((p.g : Int) - (bg.g : Int)).natAbs < 20 &&
   ((p.b : Int) - (bg.b : Int)).natAbs < 20) || p.a < 10

/-- The per-pixel action of the applyChromaKey loop body
(src/utils/gifBuilder.ts lines 41-60): a background pixel is overwritten
with the key color at full alpha, any other pixel is left unchanged. -/
def keyPixel (bg p : Pixel) : Pixel :=
  if isBackground bg p then keyColor else p

/-- applyChromaKey from src/utils/gifBuilder.ts lines 29-63: sample the
pixel at local coordinate (0,0) (`data[0..2]`) as the background
reference, then rewrite every pixel of the buffer with the loop body.
An empty buffer has no pixels and the loop does nothing. -/
def applyChromaKey : List Pixel → List Pixel
  | [] => []
  | bg :: rest => (bg :: rest).map (keyPixel bg)

end GifCreator

namespace GifCreator

/-- The tolerance test keys a pixel against itself: all channel
differences are zero. -/
theorem keyPixel_self (p : Pixel) : keyPixel p p = keyColor := by
  simp [keyPixel, isBackground]

/-- C5: applyChromaKey overwrites the pixel at position i with exactly
(255, 0, 255) at alpha 255 if and only if each of its R, G, B channels is
within the per-channel tolerance of 20 of the corresponding channel of the
pixel at local coordinate (0,0), or its alpha channel is below 10; every
other pixel is left bit-identical to its input value. -/
theorem applyChromaKey_pixel_rule (buf : List Pixel) (bg p : Pixel) (i : Nat)
    (hbg : buf.head? = some bg) (hp : buf[i]? = some p) :
    (applyChromaKey buf)[i]? =
      some (if (((p.r : Int) - (bg.r : Int)).natAbs < 20 ∧
                ((p.g : Int) - (bg.g : Int)).natAbs < 20 ∧
                ((p.b : Int) - (bg.b : Int)).natAbs < 20) ∨ p.a < 10
            then (⟨255, 0, 255, 255⟩ : Pixel) else p) := by
  match buf with
  | [] => simp at hbg
  | b :: rest =>
    simp only [List.head?_cons, Option.some.injEq] at hbg
    subst hbg
    show ((b :: rest).map (keyPixel b))[i]? = _
    rw [List.getElem?_map, hp]
    show some (keyPixel b p) = _
    congr 1
    unfold keyPixel keyColor
    exact if_congr (by simp [isBackground]; tauto) rfl rfl

/-- Witness for the pixel rule: a two-pixel buffer with background
reference (10,10,10,255); the far-from-background pixel (200,200,200,255)
is left unchanged. -/
theorem applyChromaKey_pixel_rule_witness :
    (applyChromaKey [⟨10, 10, 10, 255⟩, ⟨200, 200, 200, 255⟩])[1]? =
      some (⟨200, 200, 200, 255⟩ : Pixel) := by
  rw [applyChromaKey_pixel_rule [⟨10, 10, 10, 255⟩, ⟨200, 200, 200, 255⟩]
    ⟨10, 10, 10, 255⟩ ⟨200, 200, 200, 255⟩ 1 rfl rfl]
  norm_num

/-- C4 counterexample: applyChromaKey is not idempotent.  On the buffer
[(0,0,0,255), (250,10,250,255)] the first pass keys only the black
background pixel; the second pass re-samples the keyed top-left pixel
(now magenta) as its background reference and also keys the surviving
foreground pixel (250,10,250,255), which lies within tolerance 20 of
magenta, so applying twice differs from applying once. -/
theorem applyChromaKey_not_idempotent :
    applyChromaKey (applyChromaKey [⟨0, 0, 0, 255⟩, ⟨250, 10, 250, 255⟩]) ≠
      applyChromaKey [⟨0, 0, 0, 255⟩, ⟨250, 10, 250, 255⟩] := by
  decide

/-- C4 amended: applyChromaKey is idempotent on every buffer whose first
pass leaves no pixel that is both different from the key color and within
the background test of the key color: if every pixel of the once-keyed
buffer is either exactly the key color or fails the background test
against the key color, the second pass changes nothing. -/
theorem applyChromaKey_idempotent_of_no_near_key (buf : List Pixel)
    (H : ∀ p ∈ applyChromaKey buf, p = keyColor ∨ isBackground keyColor p = false) :
    applyChromaKey (applyChromaKey buf) = applyChromaKey buf := by
  match buf with
  | [] => rfl
  | bg :: rest =>
    have hout : applyChromaKey (bg :: rest) = keyPixel bg bg :: rest.map (keyPixel bg) := rfl
    rw [hout, keyPixel_self]
    have hmap : applyChromaKey (keyColor :: rest.map (keyPixel bg)) =
        (keyColor :: rest.map (keyPixel bg)).map (keyPixel keyColor) := rfl
    rw [hmap]
    have hfix : ∀ q ∈ keyColor :: rest.map (keyPixel bg), keyPixel keyColor q = q := by
      intro q hq
      have hq2 : q ∈ applyChromaKey (bg :: rest) := by
        rw [hout, keyPixel_self]; exact hq
      rcases H q hq2 with h | h
      · subst h; exact keyPixel_self keyColor
      · simp [keyPixel, h]
    calc (keyColor :: rest.map (keyPixel bg)).map (keyPixel keyColor)
        = (keyColor :: rest.map (keyPixel bg)).map id := List.map_congr_left hfix
      _ = keyColor :: rest.map (keyPixel bg) := List.map_id _

/-- Witness for the amended idempotence theorem: on the buffer
[(0,0,0,255), (100,100,100,255)] the once-keyed buffer holds only the key
color and a pixel far from magenta, so the second pass is the
identity. -/
theorem applyChromaKey_idempotent_witness :
    applyChromaKey (applyChromaKey [⟨0, 0, 0, 255⟩, ⟨100, 100, 100, 255⟩]) =
      applyChromaKey [⟨0, 0, 0, 255⟩, ⟨100, 100, 100, 255⟩] :=
  applyChromaKey_idempotent_of_no_near_key [⟨0, 0, 0, 255⟩, ⟨100, 100, 100, 255⟩] (by decide)

/-- One frame submission to the encoder (a `gif.addFrame(ctx, { copy:
true, delay })` call in src/utils/gifBuilder.ts line 151): the grid cell
the canvas was drawn from, the canvas pixel size, and the per-frame
delay option.  Numeric values are JavaScript numbers, modelled as exact
rationals. -/
structure Frame where
  row : Nat
  col : Nat
  width : ℚ
  height : ℚ
  delay : ℚ
deriving DecidableEq

/-- The frame-submission behavior of the export loop of generateGif
(src/utils/gifBuilder.ts lines 90-152): for each i below
`config.totalFrames`, resolve the cell with the direction logic; the
safety check `if (row >= config.rows || col >= config.cols) continue`
skips out-of-grid cells; otherwise a frame of canvas size
`(width / cols) * scale` by `(height / rows) * scale` is submitted with
delay `1000 / fps`. -/
def generateGifFrames (dir : Direction) (rows cols totalFrames : Nat)
    (width height fps scale : ℚ) : List Frame :=
  (List.range totalFrames).filterMap (fun i =>
    let rc := toCell dir rows cols i
    if rows ≤ rc.1 ∨ cols ≤ rc.2 then none
    else some { row := rc.1, col := rc.2,
                width := width / (cols : ℚ) * scale,
                height := height / (rows : ℚ) * scale,
                delay := 1000 / fps })

end GifCreator

namespace GifCreator

/-- The cell of any sequence index below rows·cols lies inside the grid,
for both traversal directions. -/
theorem toCell_lt (dir : Direction) (rows cols i : Nat)
    (hr : 1 ≤ rows) (hc : 1 ≤ cols) (hi : i < rows * cols) :
    (toCell dir rows cols i).1 < rows ∧ (toCell dir rows cols i).2 < cols := by
  cases dir with
  | column =>
    refine ⟨Nat.mod_lt _ hr, ?_⟩
    show i / rows < cols
    rw [Nat.div_lt_iff_lt_mul hr]
    rw [Nat.mul_comm] at hi
    exact hi
  | row =>
    refine ⟨?_, Nat.mod_lt _ hc⟩
    show i / cols < rows
    rw [Nat.div_lt_iff_lt_mul hc]
    exact hi

/-- Helper: mapping form of a filterMap whose function never drops an
element of the list. -/
theorem filterMap_eq_map_of_forall_some {α β : Type} (l : List α)
    (f : α → Option β) (g : α → β) (h : ∀ a ∈ l, f a = some (g a)) :
    l.filterMap f = l.map g := by
  induction l with
  | nil => rfl
  | cons x xs ih =>
    rw [List.filterMap_cons, h x (List.mem_cons_self x xs), List.map_cons,
      ih (fun a ha => h a (List.mem_cons_of_mem x ha))]

/-- Under a valid grid spec the export loop drops nothing: each submitted
frame is exactly the frame of its sequence index, in index order. -/
theorem generateGifFrames_eq_map (dir : Direction) (rows cols totalFrames : Nat)
    (width height fps scale : ℚ) (hr : 1 ≤ rows) (hc : 1 ≤ cols)
    (htf : totalFrames ≤ rows * cols) :
    generateGifFrames dir rows cols totalFrames width height fps scale =
      (List.range totalFrames).map (fun i =>
        { row := (toCell dir rows cols i).1, col := (toCell dir rows cols i).2,
          width := width / (cols : ℚ) * scale,
          height := height / (rows : ℚ) * scale,
          delay := 1000 / fps }) := by
  apply filterMap_eq_map_of_forall_some
  intro i hi
  rw [List.mem_range] at hi
  have hlt := toCell_lt dir rows cols i hr hc (Nat.lt_of_lt_of_le hi htf)
  have hguard : ¬(rows ≤ (toCell dir rows cols i).1 ∨ cols ≤ (toCell dir rows cols i).2) := by
    push_neg
    exact ⟨hlt.1, hlt.2⟩
  simp only [if_neg hguard]

/-- C2: For every export request whose config satisfies rows, cols ≥ 1
and 1 ≤ totalFrames ≤ rows·cols, the number of frames submitted to the
encoder equals totalFrames exactly, and the out-of-grid skip branch of
the export loop is never taken: the cell of every iterated index lies
strictly inside the grid, for both traversal directions. -/
theorem generateGif_frame_count (dir : Direction) (rows cols totalFrames : Nat)
    (width height fps scale : ℚ) (hr : 1 ≤ rows) (hc : 1 ≤ cols)
    (h1 : 1 ≤ totalFrames) (h2 : totalFrames ≤ rows * cols) :
    (generateGifFrames dir rows cols totalFrames width height fps scale).length = totalFrames ∧
      ∀ i < totalFrames,
        ¬(rows ≤ (toCell dir rows cols i).1 ∨ cols ≤ (toCell dir rows cols i).2) := by
  constructor
  · rw [generateGifFrames_eq_map dir rows cols totalFrames width height fps scale hr hc h2,
      List.length_map, List.length_range]
  · intro i hi
    have hlt := toCell_lt dir rows cols i hr hc (Nat.lt_of_lt_of_le hi h2)
    push_neg
    exact ⟨hlt.1, hlt.2⟩

/-- Witness for the frame-count theorem: a 2-by-2 column-major export of
3 frames submits exactly 3 frames. -/
theorem generateGif_frame_count_witness :
    (generateGifFrames Direction.column 2 2 3 400 400 10 1).length = 3 :=
  (generateGif_frame_count Direction.column 2 2 3 400 400 10 1
    (by decide) (by decide) (by decide) (by decide)).1

/-- C3 counterexample: the submitted per-frame delay is the unrounded
quotient `1000 / fps` (src/utils/gifBuilder.ts line 92), not
`round(1000/fps)`.  At fps = 3 (inside [1,60]) the single submitted
frame carries delay 1000/3, while round(1000/3) = 333 and
1000/3 ≠ 333. -/
theorem generateGif_delay_not_rounded :
    (generateGifFrames Direction.row 1 1 1 400 400 3 1).map Frame.delay = [(1000 : ℚ) / 3] ∧
      round ((1000 : ℚ) / 3) = 333 ∧ (1000 : ℚ) / 3 ≠ ((333 : ℤ) : ℚ) := by
  refine ⟨rfl, ?_, by norm_num⟩
  rw [round_eq]
  norm_num

/-- C3 amended: for every export request over a valid grid spec (rows,
cols ≥ 1, 1 ≤ totalFrames ≤ rows·cols) with fps in [1,60], every frame
submitted to the encoder carries the same per-frame delay of exactly
1000/fps milliseconds (the unrounded quotient, which equals
round(1000/fps) only when fps divides 1000), and the frame payloads are
submitted in strictly increasing sequence-index order: the j-th
submitted frame is exactly the frame of sequence index j, for
j = 0, 1, ..., totalFrames−1, with no gaps or duplicates. -/
theorem generateGif_delay_and_order (dir : Direction) (rows cols totalFrames : Nat)
    (width height scale : ℚ) (fps : ℚ) (hr : 1 ≤ rows) (hc : 1 ≤ cols)
    (h1 : 1 ≤ totalFrames) (h2 : totalFrames ≤ rows * cols)
    (hf1 : 1 ≤ fps) (hf2 : fps ≤ 60) :
    generateGifFrames dir rows cols totalFrames width height fps scale =
      (List.range totalFrames).map (fun i =>
        { row := (toCell dir rows cols i).1, col := (toCell dir rows cols i).2,
          width := width / (cols : ℚ) * scale,
          height := height / (rows : ℚ) * scale,
          delay := 1000 / fps }) :=
  generateGifFrames_eq_map dir rows cols totalFrames width height fps scale hr hc h2

/-- Witness for the delay-and-order theorem: a 1-by-2 row-major export of
2 frames at fps 4 submits delays [250, 250]. -/
theorem generateGif_delay_and_order_witness :
    (generateGifFrames Direction.row 1 2 2 100 100 4 1).map Frame.delay =
      [(250 : ℚ), 250] := by
  rw [generateGif_delay_and_order Direction.row 1 2 2 100 100 1 4
    (by decide) (by decide) (by decide) (by decide) (by norm_num) (by norm_num)]
  simp only [List.range_succ, List.range_zero, List.map_append, List.map_cons, List.map_nil]
  norm_num

/-- C7 counterexample: in the spec scenario (source 400×400, rows = 2,
cols = 2, totalFrames = 4, fps = 10, scale = 2, RowMajor) every submitted
frame is 400×400 pixels — the source cell is 200×200 (400/2) and scale 2
doubles it — not the 200×200 the claim states. -/
theorem generateGif_frame_size_counterexample :
    (generateGifFrames Direction.row 2 2 4 400 400 10 2).map
        (fun fr => (fr.width, fr.height)) =
      [((400 : ℚ), (400 : ℚ)), (400, 400), (400, 400), (400, 400)] ∧
      ((400 : ℚ), (400 : ℚ)) ≠ ((200 : ℚ), (200 : ℚ)) := by
  constructor
  · simp only [generateGifFrames, toCell, List.range_succ, List.range_zero,
      List.filterMap_append, List.filterMap_cons, List.filterMap_nil]
    norm_num
  · norm_num

/-- C7 amended: every frame buffer produced by the export pipeline has
pixel size (frameWidth·scaleFactor, frameHeight·scaleFactor) where
frameWidth = naturalWidth/cols and frameHeight = naturalHeight/rows; in
particular for a 400×400 source with rows = 2, cols = 2, totalFrames = 4,
fps = 10, scale = 2, direction RowMajor, the export submits 4 frames each
400×400 px (200×200 source cell × scale 2), each with delay 100 ms, in
cell order (0,0), (0,1), (1,0), (1,1). -/
theorem generateGif_frame_size (dir : Direction) (rows cols totalFrames : Nat)
    (width height fps scale : ℚ) :
    (∀ fr ∈ generateGifFrames dir rows cols totalFrames width height fps scale,
        fr.width = width / (cols : ℚ) * scale ∧
        fr.height = height / (rows : ℚ) * scale) ∧
      generateGifFrames Direction.row 2 2 4 400 400 10 2 =
        [⟨0, 0, 400, 400, 100⟩, ⟨0, 1, 400, 400, 100⟩,
         ⟨1, 0, 400, 400, 100⟩, ⟨1, 1, 400, 400, 100⟩] := by
  constructor
  · intro fr hfr
    rw [generateGifFrames, List.mem_filterMap] at hfr
    obtain ⟨i, _, hsome⟩ := hfr
    by_cases hg : rows ≤ (toCell dir rows cols i).1 ∨ cols ≤ (toCell dir rows cols i).2
    · rw [if_pos hg] at hsome
      exact absurd hsome (by simp)
    · rw [if_neg hg] at hsome
      cases hsome
      exact ⟨rfl, rfl⟩
  · simp only [generateGifFrames, toCell, List.range_succ, List.range_zero,
      List.filterMap_append, List.filterMap_cons, List.filterMap_nil]
    norm_num

/-- Witness for the frame-size theorem: the first frame of the concrete
scenario has width and height 400 / 2 * 2. -/
theorem generateGif_frame_size_witness :
    (⟨0, 0, 400, 400, 100⟩ : Frame).width = (400 : ℚ) / ((2 : Nat) : ℚ) * 2 ∧
      (⟨0, 0, 400, 400, 100⟩ : Frame).height = (400 : ℚ) / ((2 : Nat) : ℚ) * 2 :=
  (generateGif_frame_size Direction.row 2 2 4 400 400 10 2).1 ⟨0, 0, 400, 400, 100⟩
    (by rw [(generateGif_frame_size Direction.row 2 2 4 400 400 10 2).2]
        exact List.mem_cons_self _ _)

/-- The activity flags of the grid overlay (renderGridOverlay in the
sprite canvas component, lines 174-201): one Bool per visual cell, in
row-major reading order over `rows * cols` cells.  Cell i has
`visualRow = floor(i / cols)`, `visualCol = i % cols`; its sequence
index is computed under the configured direction and the cell is active
iff `sequenceIndex < totalFrames`. -/
def renderGridOverlay (dir : Direction) (rows cols totalFrames : Nat) : List Bool :=
  (List.range (rows * cols)).map (fun i =>
    decide (toIndex dir rows cols (i / cols) (i % cols) < totalFrames))

end GifCreator

namespace GifCreator

/-- C6: the grid overlay marks the cell at visual position (visualRow,
visualCol) = (i / cols, i % cols) active if and only if its sequence
index under the configured direction (visualRow·cols + visualCol for
RowMajor, visualCol·rows + visualRow for ColumnMajor) is below
totalFrames; and for rows = 4, cols = 4, totalFrames = 14, RowMajor,
exactly the cells with visual index 14 and 15 are inactive and all
others are active. -/
theorem renderGridOverlay_active_iff :
    (∀ (dir : Direction) (rows cols totalFrames i : Nat), i < rows * cols →
        (renderGridOverlay dir rows cols totalFrames)[i]? =
          some (decide (toIndex dir rows cols (i / cols) (i % cols) < totalFrames))) ∧
      renderGridOverlay Direction.row 4 4 14 =
        [true, true, true, true, true, true, true, true,
         true, true, true, true, true, true, false, false] := by
  constructor
  · intro dir rows cols totalFrames i hi
    rw [renderGridOverlay, List.getElem?_map, List.getElem?_range hi]
    rfl
  · decide

/-- Witness for the overlay theorem: in a 3-by-2 column-major grid with
5 frames, visual cell 4 (visual row 2, visual col 0) has sequence index
0·3 + 2 = 2 < 5 and is active. -/
theorem renderGridOverlay_active_iff_witness :
    (renderGridOverlay Direction.column 3 2 5)[4]? =
      some (decide (toIndex Direction.column 3 2 (4 / 2) (4 % 2) < 5)) :=
  renderGridOverlay_active_iff.1 Direction.column 3 2 5 4 (by decide)

/-- The frame index displayed by the live preview player (PreviewPlayer,
lines 26-30): `frameInterval = 1000 / fps` and
`frameIndex = floor(time / frameInterval) % totalFrames`, where `time`
is the absolute animation-clock timestamp handed to the scheduled
callback. -/
def frameIndexAt (time fps : ℚ) (totalFrames : Int) : Int :=
  ⌊time / (1000 / fps)⌋ % totalFrames

end GifCreator

namespace GifCreator

/-- C9 counterexample: the preview player computes the frame index from
the absolute animation-clock timestamp, so the clock keeps running while
paused.  With fps = 10 and totalFrames = 4, pausing at time 0 (frozen
index 0) and resuming 150 ms later displays index 1, not the frozen
index 0: resumption does not continue elapsed-time accounting from the
pause point. -/
theorem frameIndexAt_jumps_after_pause :
    frameIndexAt (0 + 150) 10 4 ≠ frameIndexAt 0 10 4 := by
  norm_num [frameIndexAt]

/-- C9 amended: Playing→Paused freezes on the currently displayed frame
(the scheduled loop is cancelled and nothing further is drawn), but
Paused→Playing recomputes the index from the absolute animation-clock
time: after pausing at time t and resuming d milliseconds later the
first displayed index is floor((t + d) / (1000/fps)) mod totalFrames,
which equals the frozen index exactly when the pause shifts the clock by
a whole number of animation cycles (d = k·totalFrames·(1000/fps)); in
general the player jumps ahead by the pause duration. -/
theorem frameIndexAt_resume_after_whole_cycles (t d fps : ℚ) (totalFrames : Int)
    (hf : 0 < fps) (k : Nat) (hd : d = k * ((totalFrames : ℚ) * (1000 / fps))) :
    frameIndexAt (t + d) fps totalFrames = frameIndexAt t fps totalFrames := by
  have hint : (1000 : ℚ) / fps ≠ 0 := by positivity
  have harg : (t + d) / (1000 / fps) = t / (1000 / fps) + ((k : Int) * totalFrames : Int) := by
    rw [hd]
    push_cast
    field_simp
    ring
  rw [frameIndexAt, frameIndexAt, harg, Int.floor_add_int]
  rw [Int.mul_comm]
  exact Int.add_mul_emod_self_left ⌊t / (1000 / fps)⌋ totalFrames (k : Int)

/-- Witness for the resume theorem: with fps = 10 and totalFrames = 4, a
pause of one full animation cycle (400 ms) starting at time 30 resumes
on the frozen index. -/
theorem frameIndexAt_resume_witness :
    frameIndexAt (30 + 400) 10 4 = frameIndexAt 30 10 4 :=
  frameIndexAt_resume_after_whole_cycles 30 400 10 4 (by norm_num) 1 (by norm_num)

/-- The SpriteConfig record of src/types.ts.  The integer fields hold
whatever the UI handlers pass in (e.g. `parseInt(e.target.value) || 1`,
which still admits negative values), so they are modelled as integers. -/
structure SpriteConfig where
  rows : Int
  cols : Int
  totalFrames : Int
  fps : Int
  scale : Int
  transparent : Option String
  autoTransparent : Bool
  direction : Direction
deriving DecidableEq

/-- A single `updateConfig(key, value)` call: the key together with the
value written to that field. -/
inductive ConfigUpdate where
  | rows (v : Int)
  | cols (v : Int)
  | totalFrames (v : Int)
  | fps (v : Int)
  | scale (v : Int)
  | transparent (v : Option String)
  | autoTransparent (v : Bool)
  | direction (v : Direction)
deriving DecidableEq

/-- The spread `{ ...prev, [key]: value }` of updateConfig
(src/App.tsx line 360): overwrite the addressed field, keep the rest. -/
def setField (c : SpriteConfig) : ConfigUpdate → SpriteConfig
  | .rows v => { c with rows := v }
  | .cols v => { c with cols := v }
  | .totalFrames v => { c with totalFrames := v }
  | .fps v => { c with fps := v }
  | .scale v => { c with scale := v }
  | .transparent v => { c with transparent := v }
  | .autoTransparent v => { c with autoTransparent := v }
  | .direction v => { c with direction := v }

/-- updateConfig from src/App.tsx lines 358-368: overwrite the addressed
field; when the key is rows or cols and the previous totalFrames filled
the previous grid exactly, re-sync totalFrames to the new full grid. -/
def updateConfig (prev : SpriteConfig) (u : ConfigUpdate) : SpriteConfig :=
  let next := setField prev u
  match u with
  | .rows _ =>
    if prev.totalFrames = prev.rows * prev.cols
    then { next with totalFrames := next.rows * next.cols } else next
  | .cols _ =>
    if prev.totalFrames = prev.rows * prev.cols
    then { next with totalFrames := next.rows * next.cols } else next
  | _ => next

/-- The grid-spec invariant of the specification: rows ≥ 1, cols ≥ 1 and
1 ≤ totalFrames ≤ rows·cols. -/
def validGrid (c : SpriteConfig) : Prop :=
  1 ≤ c.rows ∧ 1 ≤ c.cols ∧ 1 ≤ c.totalFrames ∧ c.totalFrames ≤ c.rows * c.cols

instance (c : SpriteConfig) : Decidable (validGrid c) := by
  unfold validGrid
  infer_instance

/-- Side conditions of the amended C8 claim: the supplied value is itself
valid for the addressed key, and a rows/cols update either starts from an
exactly-full grid (so totalFrames is re-synced) or keeps totalFrames
within the shrunken grid. -/
def updateOk (c : SpriteConfig) : ConfigUpdate → Prop
  | .rows v => 1 ≤ v ∧ (c.totalFrames = c.rows * c.cols ∨ c.totalFrames ≤ v * c.cols)
  | .cols v => 1 ≤ v ∧ (c.totalFrames = c.rows * c.cols ∨ c.totalFrames ≤ c.rows * v)
  | .totalFrames v => 1 ≤ v ∧ v ≤ c.rows * c.cols
  | .fps _ => True
  | .scale _ => True
  | .transparent _ => True
  | .autoTransparent _ => True
  | .direction _ => True

end GifCreator

namespace GifCreator

/-- C8 counterexample: updateConfig performs no validation, so the
grid-spec invariant is not preserved for arbitrary inputs.  From the
valid config (rows 4, cols 4, totalFrames 15), setting rows to 1 leaves
totalFrames = 15 > 1·4; and from the valid full config (rows 4, cols 4,
totalFrames 16), setting rows to 0 yields rows = 0 and
totalFrames = 0. -/
theorem updateConfig_breaks_invariant :
    validGrid ⟨4, 4, 15, 10, 1, none, false, Direction.row⟩ ∧
      ¬validGrid (updateConfig ⟨4, 4, 15, 10, 1, none, false, Direction.row⟩
        (ConfigUpdate.rows 1)) ∧
      validGrid ⟨4, 4, 16, 10, 1, none, false, Direction.row⟩ ∧
      ¬validGrid (updateConfig ⟨4, 4, 16, 10, 1, none, false, Direction.row⟩
        (ConfigUpdate.rows 0)) := by
  refine ⟨by decide, by decide, by decide, by decide⟩

/-- C8 amended: starting from any config satisfying the grid-spec
invariant, updateConfig yields a config that still satisfies it provided
the supplied value is valid for the addressed key (≥ 1 for rows/cols,
within [1, rows·cols] for totalFrames, anything for the remaining keys)
and a rows/cols update either starts from an exactly-full grid or keeps
the stored totalFrames within the resized grid.  updateConfig itself
rejects nothing; these are exactly the inputs the claim's counterexample
rules out. -/
theorem updateConfig_preserves_invariant (c : SpriteConfig) (u : ConfigUpdate)
    (hc : validGrid c) (hu : updateOk c u) : validGrid (updateConfig c u) := by
  obtain ⟨h1, h2, h3, h4⟩ := hc
  cases u with
  | rows v =>
    obtain ⟨hv, hfit⟩ := hu
    by_cases hfull : c.totalFrames = c.rows * c.cols
    · have h5 : (1 : Int) ≤ v * c.cols := le_trans (by norm_num)
        (mul_le_mul hv h2 (by norm_num) (le_trans (by norm_num) hv))
      simp only [updateConfig, setField, if_pos hfull]
      exact ⟨hv, h2, h5, le_refl _⟩
    · have hle : c.totalFrames ≤ v * c.cols := hfit.resolve_left hfull
      simp only [updateConfig, setField, if_neg hfull]
      exact ⟨hv, h2, h3, hle⟩
  | cols v =>
    obtain ⟨hv, hfit⟩ := hu
    by_cases hfull : c.totalFrames = c.rows * c.cols
    · have h5 : (1 : Int) ≤ c.rows * v := le_trans (by norm_num)
        (mul_le_mul h1 hv (by norm_num) (le_trans (by norm_num) h1))
      simp only [updateConfig, setField, if_pos hfull]
      exact ⟨h1, hv, h5, le_refl _⟩
    · have hle : c.totalFrames ≤ c.rows * v := hfit.resolve_left hfull
      simp only [updateConfig, setField, if_neg hfull]
      exact ⟨h1, hv, h3, hle⟩
  | totalFrames v =>
    obtain ⟨hv1, hv2⟩ := hu
    exact ⟨h1, h2, hv1, hv2⟩
  | fps v => exact ⟨h1, h2, h3, h4⟩
  | scale v => exact ⟨h1, h2, h3, h4⟩
  | transparent v => exact ⟨h1, h2, h3, h4⟩
  | autoTransparent v => exact ⟨h1, h2, h3, h4⟩
  | direction v => exact ⟨h1, h2, h3, h4⟩

/-- Witness for the amended invariant-preservation theorem: shrinking
totalFrames to 10 on a valid 4-by-4 config keeps the invariant. -/
theorem updateConfig_preserves_invariant_witness :
    validGrid (updateConfig ⟨4, 4, 15, 10, 1, none, false, Direction.row⟩
      (ConfigUpdate.totalFrames 10)) :=
  updateConfig_preserves_invariant ⟨4, 4, 15, 10, 1, none, false, Direction.row⟩
    (ConfigUpdate.totalFrames 10) (by decide) (by constructor <;> decide)

/-- C10: for every starting config and every updateConfig call that sets
rows or cols to a value v: the addressed field becomes v; if the previous
totalFrames equaled the previous rows·cols then totalFrames becomes the
new rows·cols, otherwise it keeps its previous value; and every field
other than the addressed one and totalFrames (the other grid dimension,
fps, scale, direction, autoTransparent, transparent) is unchanged. -/
theorem updateConfig_rows_cols_effect (c : SpriteConfig) (v : Int) :
    ((updateConfig c (ConfigUpdate.rows v)).rows = v ∧
     (updateConfig c (ConfigUpdate.rows v)).cols = c.cols ∧
     (updateConfig c (ConfigUpdate.rows v)).totalFrames =
       (if c.totalFrames = c.rows * c.cols then v * c.cols else c.totalFrames) ∧
     (updateConfig c (ConfigUpdate.rows v)).fps = c.fps ∧
     (updateConfig c (ConfigUpdate.rows v)).scale = c.scale ∧
     (updateConfig c (ConfigUpdate.rows v)).transparent = c.transparent ∧
     (updateConfig c (ConfigUpdate.rows v)).autoTransparent = c.autoTransparent ∧
     (updateConfig c (ConfigUpdate.rows v)).direction = c.direction) ∧
    ((updateConfig c (ConfigUpdate.cols v)).cols = v ∧
     (updateConfig c (ConfigUpdate.cols v)).rows = c.rows ∧
     (updateConfig c (ConfigUpdate.cols v)).totalFrames =
       (if c.totalFrames = c.rows * c.cols then c.rows * v else c.totalFrames) ∧
     (updateConfig c (ConfigUpdate.cols v)).fps = c.fps ∧
     (updateConfig c (ConfigUpdate.cols v)).scale = c.scale ∧
     (updateConfig c (ConfigUpdate.cols v)).transparent = c.transparent ∧
     (updateConfig c (ConfigUpdate.cols v)).autoTransparent = c.autoTransparent ∧
     (updateConfig c (ConfigUpdate.cols v)).direction = c.direction) := by
  by_cases hfull : c.totalFrames = c.rows * c.cols <;>
    simp [updateConfig, setField, hfull]

end GifCreator
